import Mathlib

/-!
# Relay table viewer: row projection and the Update/View state machine

A shallow embedding of `src/main.go`.

* The data types `Relay`, `Location`, `APIResponse` and `model` are the structs of the source.
* `createTable` follows the source statement by statement: the column literal, the
  `for ... range` loop that appends one row per relay, the `table.New` call with its four
  options, and the `SetStyles` call.
* `Update` and `View` follow the type switch and the `if` chain of the source.

The widget library (spinner, table, key messages, style rendering) is not part of the
program.  Its data types are type parameters and its functions are fields of `Lib`, so
every theorem holds for any behaviour of the library.
-/

namespace MullRelays

/-! ## Data model -/

/-- The struct `Relay`. -/
structure Relay where
  Hostname : String
  Location : String
  Active : Bool
  IPv4AddrIn : String
  deriving DecidableEq, Repr

/-- The struct `Location`. -/
structure Location where
  Country : String
  City : String
  deriving DecidableEq, Repr

/-- A Go value of type `map[string]Location`: `none` is the nil map, `some kvs` a map holding
the bindings `kvs` (the first binding of a key is the one that counts). -/
abbrev LocationMap := Option (List (String × Location))

/-- The struct `APIResponse`; `Relays` is the field `Wireguard.Relays`. -/
structure APIResponse where
  Locations : LocationMap
  Relays : List Relay
  deriving DecidableEq, Repr

/-- The zero value of `Location`. -/
def Location.zero : Location := ⟨"", ""⟩

/-- The Go index expression `m[k]` on a `map[string]Location`: the stored value, and the zero
value when the key is absent or the map is nil.  It never fails. -/
def mapIndex (m : LocationMap) (k : String) : Location :=
  match m with
  | none => Location.zero
  | some kvs => (kvs.lookup k).getD Location.zero

/-- The keys of a map; the nil map has none. -/
def mapKeys (m : LocationMap) : List String :=
  match m with
  | none => []
  | some kvs => kvs.map Prod.fst

/-- The verb `%t` of `fmt.Sprintf` applied to a boolean. -/
def fmtBool (b : Bool) : String := if b then "true" else "false"

/-! ## The table widget, as far as `createTable` configures it -/

/-- A `table.Column`. -/
structure Column where
  Title : String
  Width : Nat
  deriving DecidableEq, Repr

/-- A `table.Row` is a slice of cell strings. -/
abbrev Row := List String

/-- One builder call on a `lipgloss.Style`. -/
inductive StyleCall where
  | BorderStyleNormal
  | BorderForeground (color : String)
  | BorderBottom (b : Bool)
  | Bold (b : Bool)
  | Foreground (color : String)
  | Background (color : String)
  deriving DecidableEq, Repr

/-- A style is recorded as the builder calls made on top of the library default, oldest
first. -/
abbrev Style := List StyleCall

/-- The struct `table.Styles`. -/
structure Styles where
  Header : Style
  Cell : Style
  Selected : Style
  deriving DecidableEq, Repr

/-- The value of `table.DefaultStyles()`: no builder call made by this program yet. -/
def DefaultStyles : Styles := ⟨[], [], []⟩

/-- The fields of `table.Model` that the options used by this program write. -/
structure TableModel where
  cols : List Column
  rows : List Row
  cursor : Nat
  focus : Bool
  height : Nat
  styles : Styles
  deriving DecidableEq, Repr

/-- The zero value of `table.Model`, the table of a freshly made `model`. -/
def TableModel.zero : TableModel := ⟨[], [], 0, false, 0, DefaultStyles⟩

/-- The options passed to `table.New`. -/
inductive TableOption where
  | WithColumns (cols : List Column)
  | WithRows (rows : List Row)
  | WithFocused (f : Bool)
  | WithHeight (h : Nat)
  deriving DecidableEq, Repr

/-- Each option stores its argument in the field it is named after. -/
def TableOption.apply (t : TableModel) : TableOption → TableModel
  | .WithColumns cols => { t with cols := cols }
  | .WithRows rows => { t with rows := rows }
  | .WithFocused f => { t with focus := f }
  | .WithHeight h => { t with height := h }

/-- The constructor `table.New(opts...)`: start from cursor 0 and default styles, then run
the options from left to right. -/
def tableNew (opts : List TableOption) : TableModel :=
  opts.foldl TableOption.apply ⟨[], [], 0, false, 0, DefaultStyles⟩

/-- The method `SetStyles`. -/
def TableModel.SetStyles (t : TableModel) (s : Styles) : TableModel := { t with styles := s }

/-! ## createTable -/

/-- The column literal at the top of `createTable`. -/
def columns : List Column :=
  [ ⟨"Hostname", 20⟩,
    ⟨"Location", 10⟩,
    ⟨"Active", 7⟩,
    ⟨"IPv4 Address", 15⟩,
    ⟨"Country", 15⟩ ]

/-- The row literal built in the loop of `createTable` for one relay, after the lookup
`locationInfo := apiResp.Locations[relay.Location]`. -/
def relayRow (locations : LocationMap) (relay : Relay) : Row :=
  let locationInfo := mapIndex locations relay.Location
  [relay.Hostname,
   relay.Location,
   fmtBool relay.Active,
   relay.IPv4AddrIn,
   locationInfo.Country]

/-- The body of the loop in `createTable`: `rows = append(rows, row)`. -/
def appendRow (locations : LocationMap) (rows : List Row) (relay : Relay) : List Row :=
  rows ++ [relayRow locations relay]

/-- The loop `for _, relay := range apiResp.Wireguard.Relays`, started from the nil slice. -/
def buildRows (apiResp : APIResponse) : List Row :=
  apiResp.Relays.foldl (appendRow apiResp.Locations) []

/-- The styles `createTable` installs. -/
def tableStyles : Styles :=
  let s := DefaultStyles
  let s := { s with Header := s.Header ++
    [StyleCall.BorderStyleNormal, StyleCall.BorderForeground "240",
     StyleCall.BorderBottom true, StyleCall.Bold false] }
  let s := { s with Selected := s.Selected ++
    [StyleCall.Foreground "229", StyleCall.Background "57", StyleCall.Bold false] }
  s

/-- The function `createTable`. -/
def createTable (apiResp : APIResponse) : TableModel :=
  let rows := buildRows apiResp
  let t := tableNew [.WithColumns columns, .WithRows rows, .WithFocused true, .WithHeight 11]
  t.SetStyles tableStyles

/-! ## Messages, commands and the model -/

/-- A Go `error` value, known by the text its `Error()` method returns. -/
structure GoError where
  Error : String
  deriving DecidableEq, Repr

/-- A `tea.Msg`, split by the dynamic types the type switch of `Update` tells apart.  The
types `τ` (spinner tick), `κ` (key message) and `ο` (any other message) belong to the
library. -/
inductive Msg (τ κ ο : Type) where
  | TickMsg (t : τ)
  | APIResponse (r : APIResponse)
  | error (e : GoError)
  | KeyMsg (k : κ)
  | other (o : ο)

/-- A `tea.Cmd`: nil, `tea.Quit`, or a command `c` made by the library. -/
inductive Cmd (γ : Type) where
  | nil
  | Quit
  | lib (c : γ)
  deriving DecidableEq, Repr

/-- The struct `model`; `σ` is `spinner.Model`, and `err = none` is the nil error. -/
structure model (σ : Type) where
  spinner : σ
  loading : Bool
  table : TableModel
  err : Option GoError

/-- The library functions the program calls. -/
structure Lib (σ τ κ ο γ : Type) where
  /-- The method `spinner.Model.Update` on a tick. -/
  spinnerUpdate : σ → τ → σ × Cmd γ
  /-- The method `spinner.Model.View`. -/
  spinnerView : σ → String
  /-- The method `table.Model.Update`. -/
  tableUpdate : TableModel → Msg τ κ ο → TableModel × Cmd γ
  /-- The method `table.Model.View`. -/
  tableView : TableModel → String
  /-- The method `table.Model.HelpView`. -/
  tableHelpView : TableModel → String
  /-- The method `tea.KeyMsg.String`. -/
  keyString : κ → String
  /-- The call `baseStyle.Render`. -/
  baseStyleRender : String → String

variable {σ τ κ ο γ : Type}

/-- The statements of `Update` after the type switch: forward the message to the table
unless loading, return no command. -/
def afterSwitch (L : Lib σ τ κ ο γ) (m : model σ) (msg : Msg τ κ ο) : model σ × Cmd γ :=
  let m := if !m.loading then { m with table := (L.tableUpdate m.table msg).1 } else m
  (m, Cmd.nil)

/-- The method `model.Update`. -/
def Update (L : Lib σ τ κ ο γ) (m : model σ) (msg : Msg τ κ ο) : model σ × Cmd γ :=
  match msg with
  | .TickMsg t =>
    if m.loading then
      let r := L.spinnerUpdate m.spinner t
      ({ m with spinner := r.1 }, r.2)
    else afterSwitch L m msg
  | .APIResponse r =>
    let m := { m with loading := false }
    let m := { m with table := createTable r }
    (m, Cmd.nil)
  | .error e =>
    let m := { m with loading := false }
    let m := { m with err := some e }
    (m, Cmd.nil)
  | .KeyMsg k =>
    if L.keyString k = "q" ∨ L.keyString k = "ctrl+c" then (m, Cmd.Quit)
    else afterSwitch L m msg
  | .other _ => afterSwitch L m msg

/-- The method `model.View`. -/
def View (L : Lib σ τ κ ο γ) (m : model σ) : String :=
  if m.loading then
    "\n\n   " ++ L.spinnerView m.spinner ++ " Fetching data..."
  else
    match m.err with
    | some e => "Error: " ++ e.Error
    | none => L.baseStyleRender (L.tableView m.table) ++ "\n  " ++ L.tableHelpView m.table ++ "\n"

/-- The model `main` starts the program with: the given spinner, `loading: true`, and zero
values for the table and the error. -/
def initialModel (s : σ) : model σ := ⟨s, true, TableModel.zero, none⟩

/-- The three cases `View` tells apart. -/
inductive Phase where
  | Loading
  | Ready
  | Failed
  deriving DecidableEq, Repr

/-- The phase of a model, by the tests of `View`: `m.loading` first, then `m.err != nil`. -/
def model.phase (m : model σ) : Phase :=
  if m.loading then Phase.Loading
  else if m.err.isSome then Phase.Failed
  else Phase.Ready

/-- The model after a sequence of messages has gone through `Update`, commands dropped. -/
def runMsgs (L : Lib σ τ κ ο γ) (m : model σ) (msgs : List (Msg τ κ ο)) : model σ :=
  msgs.foldl (fun m msg => (Update L m msg).1) m

/-! ## Concrete inputs -/

/-- The payload of Scenario A. -/
def scenarioA : APIResponse :=
  ⟨some [("se", ⟨"Sweden", "Stockholm"⟩)], [⟨"se1-wg", "se", true, "1.2.3.4"⟩]⟩

/-- A payload whose only relay names a location the mapping does not hold. -/
def orphanRelay : APIResponse :=
  ⟨some [("se", ⟨"Sweden", "Stockholm"⟩)], [⟨"de1-wg", "de", false, "5.6.7.8"⟩]⟩

/-- A small library instance: the spinner is a frame counter, a key is its own string form,
and the table moves its cursor down on the key "down". -/
def demoLib : Lib Nat Unit String Unit Unit where
  spinnerUpdate := fun s _ => (s + 1, Cmd.lib ())
  spinnerView := fun s => toString s
  tableUpdate := fun t msg =>
    match msg with
    | .KeyMsg "down" => ({ t with cursor := t.cursor + 1 }, Cmd.nil)
    | _ => (t, Cmd.nil)
  tableView := fun t => String.intercalate " " (t.cols.map Column.Title)
  tableHelpView := fun _ => "q quit"
  keyString := fun k => k
  baseStyleRender := fun s => s

/-- A model in phase Loading: the initial model with spinner frame 0. -/
def loadingModel : model Nat := initialModel 0

/-- A model in phase Ready, showing the table of Scenario A. -/
def readyModel : model Nat := ⟨0, false, createTable scenarioA, none⟩

/-- The error of Scenario C. -/
def connRefused : GoError := ⟨"dial tcp: connection refused"⟩

/-- Whether the type switch of `Update` takes the branch `case error`. -/
def Msg.isError : Msg τ κ ο → Bool
  | .error _ => true
  | _ => false

/-! ## Row projection -/

theorem foldl_appendRow (locations : LocationMap) (relays : List Relay) (acc : List Row) :
    relays.foldl (appendRow locations) acc = acc ++ relays.map (relayRow locations) := by
  induction relays generalizing acc with
  | nil => simp
  | cons r rs ih => simp [List.foldl_cons, ih, appendRow]

theorem createTable_rows (apiResp : APIResponse) :
    (createTable apiResp).rows = apiResp.Relays.map (relayRow apiResp.Locations) := by
  simp [createTable, tableNew, TableOption.apply, TableModel.SetStyles, buildRows,
    foldl_appendRow]

theorem createTable_cols (apiResp : APIResponse) : (createTable apiResp).cols = columns := by
  simp [createTable, tableNew, TableOption.apply, TableModel.SetStyles]

theorem mapIndex_absent (locations : LocationMap) (k : String)
    (h : k ∉ mapKeys locations) : mapIndex locations k = Location.zero := by
  cases locations with
  | none => rfl
  | some kvs =>
    have hn : kvs.lookup k = none := by
      induction kvs with
      | nil => rfl
      | cons p ps ih =>
        obtain ⟨a, b⟩ := p
        simp only [mapKeys, List.map_cons, List.mem_cons, not_or] at h
        have hne : (k == a) = false := by simpa using h.1
        simp only [List.lookup_cons, hne]
        exact ih (by simpa [mapKeys] using h.2)
    simp [mapIndex, hn]

/-- C1: the rows of the table built by createTable are as many as the relays of the
response, and row i is the row made from relay i: the rows are the relays mapped in input
order, nothing dropped, reordered or repeated. -/
theorem createTable_rows_count_and_order (apiResp : APIResponse) :
    (createTable apiResp).rows.length = apiResp.Relays.length ∧
    (∀ i : Nat, (createTable apiResp).rows[i]? =
      (apiResp.Relays[i]?).map (relayRow apiResp.Locations)) ∧
    (createTable apiResp).rows = apiResp.Relays.map (relayRow apiResp.Locations) := by
  refine ⟨?_, ?_, createTable_rows apiResp⟩
  · simp [createTable_rows]
  · intro i
    simp [createTable_rows]

/-- C2: the row createTable builds for relay r (at any position i of the relay list) is the
five cells hostname, location key, "true" or "false" for the active flag, IPv4 address, and
the country of the location the mapping gives for the key, in this column order; and the
payload of Scenario A yields the single row se1-wg, se, true, 1.2.3.4, Sweden. -/
theorem createTable_row_cells (apiResp : APIResponse) (i : Nat) (r : Relay)
    (h : apiResp.Relays[i]? = some r) :
    (createTable apiResp).rows[i]? =
      some [r.Hostname, r.Location, (if r.Active then "true" else "false"), r.IPv4AddrIn,
            (mapIndex apiResp.Locations r.Location).Country] ∧
    (createTable scenarioA).rows = [["se1-wg", "se", "true", "1.2.3.4", "Sweden"]] := by
  refine ⟨?_, ?_⟩
  · simp [createTable_rows, h, relayRow, fmtBool]
  · simp [createTable_rows, scenarioA, relayRow, fmtBool, mapIndex, List.lookup]

theorem createTable_row_cells_witness :
    scenarioA.Relays[0]? = some ⟨"se1-wg", "se", true, "1.2.3.4"⟩ ∧
    ((createTable scenarioA).rows[0]? =
      some ["se1-wg", "se", (if true then "true" else "false"), "1.2.3.4",
            (mapIndex scenarioA.Locations "se").Country] ∧
     (createTable scenarioA).rows = [["se1-wg", "se", "true", "1.2.3.4", "Sweden"]]) :=
  ⟨rfl, createTable_row_cells scenarioA 0 ⟨"se1-wg", "se", true, "1.2.3.4"⟩ rfl⟩

/-- C3: when the location key of relay r is not a key of the locations mapping (also when
the mapping is empty or nil), createTable still builds the row of r, its country cell is the
empty string, and the other four cells come from the relay. -/
theorem createTable_absent_location (apiResp : APIResponse) (i : Nat) (r : Relay)
    (h : apiResp.Relays[i]? = some r) (habs : r.Location ∉ mapKeys apiResp.Locations) :
    (createTable apiResp).rows[i]? =
      some [r.Hostname, r.Location, (if r.Active then "true" else "false"), r.IPv4AddrIn, ""] := by
  simp [createTable_rows, h, relayRow, fmtBool, mapIndex_absent _ _ habs, Location.zero]

theorem createTable_absent_location_witness :
    orphanRelay.Relays[0]? = some ⟨"de1-wg", "de", false, "5.6.7.8"⟩ ∧
    "de" ∉ mapKeys orphanRelay.Locations ∧
    (createTable orphanRelay).rows[0]? =
      some ["de1-wg", "de", (if false then "true" else "false"), "5.6.7.8", ""] :=
  ⟨rfl, by decide,
    createTable_absent_location orphanRelay 0 ⟨"de1-wg", "de", false, "5.6.7.8"⟩ rfl
      (by decide)⟩

/-- C10, as the spec states it, fails: the second header of the table built for the payload
of Scenario A is not "Location key". -/
theorem createTable_headers_counterexample :
    ¬ ((createTable scenarioA).cols.map Column.Title =
        ["Hostname", "Location key", "Active", "IPv4 Address", "Country"] ∧
       ∀ row ∈ (createTable scenarioA).rows, row.length = 5) := by
  rw [createTable_cols]
  intro h
  exact absurd h.1 (by decide)

/-- C10, amended: for every response the table built by createTable has five columns titled
Hostname, Location, Active, IPv4 Address, Country, in this order, and every row has five
cells, one for each column. -/
theorem createTable_headers (apiResp : APIResponse) :
    (createTable apiResp).cols.length = 5 ∧
    (createTable apiResp).cols.map Column.Title =
      ["Hostname", "Location", "Active", "IPv4 Address", "Country"] ∧
    ∀ row ∈ (createTable apiResp).rows,
      row.length = 5 ∧ row.length = (createTable apiResp).cols.length := by
  rw [createTable_cols, createTable_rows]
  refine ⟨rfl, rfl, ?_⟩
  intro row hrow
  obtain ⟨r, -, rfl⟩ := List.mem_map.1 hrow
  exact ⟨rfl, rfl⟩

/-! ## The state machine -/

theorem phase_eq_Loading (m : model σ) : m.phase = Phase.Loading ↔ m.loading = true := by
  unfold model.phase
  cases m.loading <;> cases m.err <;> simp

theorem phase_eq_Ready (m : model σ) :
    m.phase = Phase.Ready ↔ m.loading = false ∧ m.err = none := by
  unfold model.phase
  cases m.loading <;> cases m.err <;> simp

theorem phase_eq_Failed (m : model σ) :
    m.phase = Phase.Failed ↔ m.loading = false ∧ m.err.isSome = true := by
  unfold model.phase
  cases m.loading <;> cases m.err <;> simp

theorem afterSwitch_fields (L : Lib σ τ κ ο γ) (m : model σ) (msg : Msg τ κ ο) :
    (afterSwitch L m msg).1.loading = m.loading ∧ (afterSwitch L m msg).1.err = m.err ∧
    (afterSwitch L m msg).1.spinner = m.spinner ∧ (afterSwitch L m msg).2 = Cmd.nil := by
  by_cases h : m.loading = true <;> simp [afterSwitch, h]

theorem Update_KeyMsg (L : Lib σ τ κ ο γ) (m : model σ) (k : κ) :
    Update L m (Msg.KeyMsg k) =
      if L.keyString k = "q" ∨ L.keyString k = "ctrl+c" then (m, Cmd.Quit)
      else afterSwitch L m (Msg.KeyMsg k) := rfl

theorem Update_loading_false (L : Lib σ τ κ ο γ) (m : model σ) (msg : Msg τ κ ο)
    (h : m.loading = false) : (Update L m msg).1.loading = false := by
  cases msg with
  | TickMsg t => simp [Update, h, (afterSwitch_fields L m _).1]
  | APIResponse r => simp [Update]
  | error e => simp [Update]
  | KeyMsg k =>
    rw [Update_KeyMsg]
    split
    · exact h
    · simp [h, (afterSwitch_fields L m _).1]
  | other o => simp [Update, h, (afterSwitch_fields L m _).1]

theorem runMsgs_append (L : Lib σ τ κ ο γ) (m : model σ) (xs ys : List (Msg τ κ ο)) :
    runMsgs L m (xs ++ ys) = runMsgs L (runMsgs L m xs) ys := by
  simp [runMsgs, List.foldl_append]

theorem runMsgs_loading_false (L : Lib σ τ κ ο γ) (msgs : List (Msg τ κ ο)) (m : model σ)
    (h : m.loading = false) : (runMsgs L m msgs).loading = false := by
  induction msgs generalizing m with
  | nil => simpa [runMsgs] using h
  | cons x xs ih =>
    have := ih (Update L m x).1 (Update_loading_false L m x h)
    simpa [runMsgs] using this

/-- C4, as the spec states it, fails: a model in phase Ready that receives an error message
is moved to phase Failed, and the command returned is nil, not the quit command. -/
theorem Update_terminal_phase_counterexample :
    readyModel.phase = Phase.Ready ∧
    (Update demoLib readyModel (Msg.error connRefused)).1.phase = Phase.Failed ∧
    (Update demoLib readyModel (Msg.error connRefused)).1.phase ≠ readyModel.phase ∧
    (Update demoLib readyModel (Msg.error connRefused)).2 = Cmd.nil := by
  refine ⟨?_, ?_, ?_, ?_⟩ <;> simp [Update, readyModel, model.phase]

/-- C4, amended: for every model in phase Ready or Failed and every message, the model
Update returns is in the same phase as before, except that an error message always leaves
it in phase Failed; so Failed is never left, Ready is left only for Failed and only by an
error message, and neither goes back to Loading. -/
theorem Update_phase_after_loading (L : Lib σ τ κ ο γ) (m : model σ) (msg : Msg τ κ ο)
    (h : m.phase = Phase.Ready ∨ m.phase = Phase.Failed) :
    (Update L m msg).1.phase = (if msg.isError then Phase.Failed else m.phase) := by
  have hl : m.loading = false := by
    rcases h with h | h
    · exact ((phase_eq_Ready m).1 h).1
    · exact ((phase_eq_Failed m).1 h).1
  have hrest : ∀ msg : Msg τ κ ο, (afterSwitch L m msg).1.phase = m.phase := by
    intro msg
    have := afterSwitch_fields L m msg
    simp [model.phase, this.1, this.2.1]
  cases msg with
  | TickMsg t => simp [Update, hl, Msg.isError, hrest]
  | APIResponse r => simp [Update, Msg.isError, model.phase, hl]
  | error e => simp [Update, Msg.isError, model.phase]
  | KeyMsg k =>
    rw [Update_KeyMsg]
    split
    · simp [Msg.isError]
    · simp [Msg.isError, hrest]
  | other o => simp [Update, Msg.isError, hrest]

theorem Update_phase_after_loading_witness :
    (readyModel.phase = Phase.Ready ∨ readyModel.phase = Phase.Failed) ∧
    (Update demoLib readyModel (Msg.KeyMsg "down")).1.phase =
      (if (Msg.KeyMsg "down" : Msg Unit String Unit).isError then Phase.Failed
       else readyModel.phase) :=
  ⟨Or.inl (by decide),
    Update_phase_after_loading demoLib readyModel (Msg.KeyMsg "down") (Or.inl (by decide))⟩

theorem Update_TickMsg_loading (L : Lib σ τ κ ο γ) (m : model σ) (t : τ)
    (h : m.loading = true) :
    Update L m (Msg.TickMsg t) =
      ({ m with spinner := (L.spinnerUpdate m.spinner t).1 }, (L.spinnerUpdate m.spinner t).2) := by
  simp [Update, h]

theorem runMsgs_ticks (L : Lib σ τ κ ο γ) (ts : List τ) (m : model σ)
    (h : m.loading = true) :
    (runMsgs L m (ts.map Msg.TickMsg)).loading = true ∧
    (runMsgs L m (ts.map Msg.TickMsg)).table = m.table ∧
    (runMsgs L m (ts.map Msg.TickMsg)).err = m.err := by
  induction ts generalizing m with
  | nil => simp [runMsgs, h]
  | cons t ts ih =>
    have hstep := Update_TickMsg_loading L m t h
    have := ih (Update L m (Msg.TickMsg t)).1 (by rw [hstep]; exact h)
    rw [hstep] at this
    simpa [runMsgs, hstep] using this

/-- C5: the phase never goes back to Loading.  From a model with loading = false, Update
returns a model with loading = false whatever the message, so does any sequence of
messages; and along any sequence of messages applied to the initial model, once loading is
false after i messages it is false after j messages for every later j. -/
theorem Update_never_back_to_loading (L : Lib σ τ κ ο γ) (m : model σ) (msg : Msg τ κ ο)
    (h : m.loading = false) :
    (Update L m msg).1.loading = false ∧
    (∀ msgs : List (Msg τ κ ο), (runMsgs L m msgs).loading = false) ∧
    (∀ (s : σ) (msgs : List (Msg τ κ ο)) (i j : Nat), i ≤ j →
      (runMsgs L (initialModel s) (msgs.take i)).loading = false →
      (runMsgs L (initialModel s) (msgs.take j)).loading = false) := by
  refine ⟨Update_loading_false L m msg h, fun msgs => runMsgs_loading_false L msgs m h, ?_⟩
  intro s msgs i j hij hi
  have hsplit : msgs.take j = msgs.take i ++ (msgs.take j).drop i := by
    have h1 : (msgs.take j).take i = msgs.take i := by
      rw [List.take_take, Nat.min_eq_left hij]
    rw [← h1, List.take_append_drop]
  rw [hsplit, runMsgs_append]
  exact runMsgs_loading_false L _ _ hi

theorem Update_never_back_to_loading_witness :
    readyModel.loading = false ∧
    ((Update demoLib readyModel (Msg.TickMsg ())).1.loading = false ∧
     (∀ msgs : List (Msg Unit String Unit), (runMsgs demoLib readyModel msgs).loading = false) ∧
     (∀ (s : Nat) (msgs : List (Msg Unit String Unit)) (i j : Nat), i ≤ j →
       (runMsgs demoLib (initialModel s) (msgs.take i)).loading = false →
       (runMsgs demoLib (initialModel s) (msgs.take j)).loading = false)) :=
  ⟨rfl, Update_never_back_to_loading demoLib readyModel (Msg.TickMsg ()) rfl⟩

/-- C6: for a model with loading = true and a spinner tick, Update returns a model with
loading still true and the table and err fields unchanged; the spinner field and the command
are the results of the spinner update; and after any number of ticks in a row the model is
still loading, in phase Loading, with the same table and err. -/
theorem Update_tick_while_loading (L : Lib σ τ κ ο γ) (m : model σ) (t : τ)
    (h : m.loading = true) :
    (Update L m (Msg.TickMsg t)).1.loading = true ∧
    (Update L m (Msg.TickMsg t)).1.table = m.table ∧
    (Update L m (Msg.TickMsg t)).1.err = m.err ∧
    (Update L m (Msg.TickMsg t)).1.spinner = (L.spinnerUpdate m.spinner t).1 ∧
    (Update L m (Msg.TickMsg t)).2 = (L.spinnerUpdate m.spinner t).2 ∧
    (Update L m (Msg.TickMsg t)).1.phase = Phase.Loading ∧
    ∀ ts : List τ,
      (runMsgs L m (ts.map Msg.TickMsg)).loading = true ∧
      (runMsgs L m (ts.map Msg.TickMsg)).table = m.table ∧
      (runMsgs L m (ts.map Msg.TickMsg)).err = m.err ∧
      (runMsgs L m (ts.map Msg.TickMsg)).phase = Phase.Loading := by
  rw [Update_TickMsg_loading L m t h]
  refine ⟨h, rfl, rfl, rfl, rfl, (phase_eq_Loading _).2 h, ?_⟩
  intro ts
  have := runMsgs_ticks L ts m h
  exact ⟨this.1, this.2.1, this.2.2, (phase_eq_Loading _).2 this.1⟩

theorem Update_tick_while_loading_witness :
    loadingModel.loading = true ∧
    ((Update demoLib loadingModel (Msg.TickMsg ())).1.loading = true ∧
     (Update demoLib loadingModel (Msg.TickMsg ())).1.table = loadingModel.table ∧
     (Update demoLib loadingModel (Msg.TickMsg ())).1.err = loadingModel.err ∧
     (Update demoLib loadingModel (Msg.TickMsg ())).1.spinner =
       (demoLib.spinnerUpdate loadingModel.spinner ()).1 ∧
     (Update demoLib loadingModel (Msg.TickMsg ())).2 =
       (demoLib.spinnerUpdate loadingModel.spinner ()).2 ∧
     (Update demoLib loadingModel (Msg.TickMsg ())).1.phase = Phase.Loading ∧
     ∀ ts : List Unit,
       (runMsgs demoLib loadingModel (ts.map Msg.TickMsg)).loading = true ∧
       (runMsgs demoLib loadingModel (ts.map Msg.TickMsg)).table = loadingModel.table ∧
       (runMsgs demoLib loadingModel (ts.map Msg.TickMsg)).err = loadingModel.err ∧
       (runMsgs demoLib loadingModel (ts.map Msg.TickMsg)).phase = Phase.Loading) :=
  ⟨rfl, Update_tick_while_loading demoLib loadingModel () rfl⟩

/-- C7: for a model in phase Loading with err = nil and an APIResponse message, Update
returns a model in phase Ready (loading = false, err = nil) whose table is createTable of
the response, so its rows are the projected rows of the relays; the spinner is unchanged
and the command is nil; for a response with no relays the table has zero rows. -/
theorem Update_APIResponse_while_loading (L : Lib σ τ κ ο γ) (m : model σ)
    (r : APIResponse) (_h : m.phase = Phase.Loading) (herr : m.err = none) :
    (Update L m (Msg.APIResponse r)).1.phase = Phase.Ready ∧
    (Update L m (Msg.APIResponse r)).1.loading = false ∧
    (Update L m (Msg.APIResponse r)).1.err = none ∧
    (Update L m (Msg.APIResponse r)).1.table = createTable r ∧
    (Update L m (Msg.APIResponse r)).1.table.rows = r.Relays.map (relayRow r.Locations) ∧
    (Update L m (Msg.APIResponse r)).1.spinner = m.spinner ∧
    (Update L m (Msg.APIResponse r)).2 = Cmd.nil ∧
    (r.Relays = [] → (Update L m (Msg.APIResponse r)).1.table.rows = []) := by
  have hU : Update L m (Msg.APIResponse r) =
      ({ m with loading := false, table := createTable r }, Cmd.nil) := rfl
  rw [hU]
  refine ⟨(phase_eq_Ready _).2 ⟨rfl, herr⟩, rfl, herr, rfl, createTable_rows r, rfl, rfl, ?_⟩
  intro hnil
  simp [createTable_rows, hnil]

theorem Update_APIResponse_while_loading_witness :
    loadingModel.phase = Phase.Loading ∧ loadingModel.err = none ∧
    (Update demoLib loadingModel (Msg.APIResponse scenarioA)).1.phase = Phase.Ready ∧
    (Update demoLib loadingModel (Msg.APIResponse scenarioA)).1.table = createTable scenarioA :=
  have h := Update_APIResponse_while_loading demoLib loadingModel scenarioA (by decide) rfl
  ⟨by decide, rfl, h.1, h.2.2.2.1⟩

theorem View_Failed (L : Lib σ τ κ ο γ) (m : model σ) (e : GoError)
    (hl : m.loading = false) (he : m.err = some e) : View L m = "Error: " ++ e.Error := by
  simp [View, hl, he]

theorem error_text_ne_empty (d : String) : "Error: " ++ d ≠ "" := by
  intro h
  have hlen := congrArg String.length h
  simp only [String.length_append] at hlen
  have h7 : "Error: ".length = 7 := by decide
  have h0 : "".length = 0 := by decide
  omega

/-- C8: for a model in phase Loading and an error message e, Update returns a model in phase
Failed (loading = false, err = e) with the spinner and the table unchanged and command nil;
View of that model is the text "Error: " followed by the description of e, which is not
empty, and it stays the same whatever the spinner, the table and the library functions
are, so it holds no spinner and no table output. -/
theorem Update_error_while_loading (L : Lib σ τ κ ο γ) (m : model σ) (e : GoError)
    (_h : m.phase = Phase.Loading) :
    (Update L m (Msg.error e)).1.phase = Phase.Failed ∧
    (Update L m (Msg.error e)).1.loading = false ∧
    (Update L m (Msg.error e)).1.err = some e ∧
    (Update L m (Msg.error e)).1.spinner = m.spinner ∧
    (Update L m (Msg.error e)).1.table = m.table ∧
    (Update L m (Msg.error e)).2 = Cmd.nil ∧
    View L (Update L m (Msg.error e)).1 = "Error: " ++ e.Error ∧
    View L (Update L m (Msg.error e)).1 ≠ "" ∧
    (∀ (L' : Lib σ τ κ ο γ) (s : σ) (t : TableModel),
      View L' { (Update L m (Msg.error e)).1 with spinner := s, table := t } =
        View L (Update L m (Msg.error e)).1) := by
  have hU : Update L m (Msg.error e) = ({ m with loading := false, err := some e }, Cmd.nil) :=
    rfl
  rw [hU]
  refine ⟨(phase_eq_Failed _).2 ⟨rfl, rfl⟩, rfl, rfl, rfl, rfl, rfl, ?_, ?_, ?_⟩
  · exact View_Failed L _ e rfl rfl
  · rw [View_Failed L _ e rfl rfl]
    exact error_text_ne_empty _
  · intro L' s t
    rw [View_Failed L _ e rfl rfl, View_Failed L' _ e rfl rfl]

theorem Update_error_while_loading_witness :
    loadingModel.phase = Phase.Loading ∧
    (Update demoLib loadingModel (Msg.error connRefused)).1.phase = Phase.Failed ∧
    View demoLib (Update demoLib loadingModel (Msg.error connRefused)).1 =
      "Error: dial tcp: connection refused" :=
  have h := Update_error_while_loading demoLib loadingModel connRefused (by decide)
  ⟨by decide, h.1, h.2.2.2.2.2.2.1⟩

/-- C9: in any phase, a key message whose string form is "q" or "ctrl+c" makes Update return
the quit command together with the model unchanged (the key is not forwarded to the table);
a key message with any other string form never makes Update return the quit command: the
command is nil and loading, err and spinner are as before. -/
theorem Update_key_quit (L : Lib σ τ κ ο γ) (m : model σ) (k : κ) :
    ((L.keyString k = "q" ∨ L.keyString k = "ctrl+c") →
      Update L m (Msg.KeyMsg k) = (m, Cmd.Quit)) ∧
    (¬ (L.keyString k = "q" ∨ L.keyString k = "ctrl+c") →
      (Update L m (Msg.KeyMsg k)).2 ≠ Cmd.Quit ∧
      (Update L m (Msg.KeyMsg k)).2 = Cmd.nil ∧
      (Update L m (Msg.KeyMsg k)).1.loading = m.loading ∧
      (Update L m (Msg.KeyMsg k)).1.err = m.err ∧
      (Update L m (Msg.KeyMsg k)).1.spinner = m.spinner) := by
  rw [Update_KeyMsg]
  refine ⟨fun hq => by rw [if_pos hq], fun hq => ?_⟩
  rw [if_neg hq]
  have := afterSwitch_fields L m (Msg.KeyMsg k)
  refine ⟨?_, this.2.2.2, this.1, this.2.1, this.2.2.1⟩
  rw [this.2.2.2]
  exact fun hc => Cmd.noConfusion hc

theorem Update_key_quit_witness :
    Update demoLib readyModel (Msg.KeyMsg "q") = (readyModel, Cmd.Quit) ∧
    Update demoLib loadingModel (Msg.KeyMsg "ctrl+c") = (loadingModel, Cmd.Quit) ∧
    (Update demoLib readyModel (Msg.KeyMsg "down")).2 ≠ Cmd.Quit :=
  ⟨(Update_key_quit demoLib readyModel "q").1 (Or.inl rfl),
   (Update_key_quit demoLib loadingModel "ctrl+c").1 (Or.inr rfl),
   ((Update_key_quit demoLib readyModel "down").2 (by decide)).1⟩

end MullRelays
